import Mathlib

/-!
Verification of `extendclass` (`src/index.js`), a prototype-chain
subclassing utility:

    module.exports = function extend(dog, animal) {
      dog.prototype = Object.create(animal.prototype)
      dog.prototype.constructor = dog
    }

We shallowly embed the fragment of the JavaScript object model that this
function touches: a heap of plain objects (own-property lists plus an
internal `[[Prototype]]` link), a table of constructor functions (of which
only the `prototype` slot is relevant), property lookup along the
prototype chain (`[[Get]]`), `Object.create`, property assignment, and
`new C()` as far as prototype linkage is concerned (constructor-body side
effects are caller code and are not part of this library).

Heap addresses are list indices; allocation appends.  Every object
allocated by `Object.create` sits at a fresh top address and delegates to
an already-existing (strictly smaller) address, so prototype chains built
by these operations strictly descend — matching JavaScript's guarantee
that prototype chains are acyclic.  `lookupObj` therefore only follows a
`[[Prototype]]` link that strictly decreases the address, and `o + 1`
steps of fuel always suffice to walk the whole chain from address `o`.
-/

/-- A JavaScript runtime value, restricted to what the claims need:
`undefined`, `null`, strings, references to constructor functions
(by index into the constructor table) and references to heap objects. -/
inductive Value where
  | undefined : Value
  | nullV : Value
  | str : String → Value
  | ctor : Nat → Value
  | obj : Nat → Value
deriving DecidableEq, Repr

/-- A heap object: its own (direct) properties, in insertion order, and
its internal `[[Prototype]]` link (`none` models a `null` prototype). -/
structure JsObject where
  props : List (String × Value)
  proto : Option Nat
deriving DecidableEq, Repr

/-- A constructor function.  `extend` only ever reads and writes the
`prototype` slot, so that is all we track; the slot holds the heap
address of the function's prototype object. -/
structure Ctor where
  prototype : Nat
deriving DecidableEq, Repr

/-- The mutable state `extend` acts on: the object heap and the
constructor table. -/
structure State where
  heap : List JsObject
  ctors : List Ctor
deriving DecidableEq, Repr

/-- Read an own property from a property list (first binding wins,
matching overwrite-in-place assignment below). -/
def getProp : List (String × Value) → String → Option Value
  | [], _ => none
  | (k, v) :: rest, name => if k = name then some v else getProp rest name

/-- JavaScript property assignment on an own-property list: overwrite an
existing binding in place, otherwise append a new one. -/
def setProp : List (String × Value) → String → Value → List (String × Value)
  | [], name, v => [(name, v)]
  | (k, w) :: rest, name, v =>
    if k = name then (k, v) :: rest else (k, w) :: setProp rest name v

/-- `h[o].name = v`: assign an own property on the object at address `o`
(no effect on an address that holds no object). -/
def setObjProp (h : List JsObject) (o : Nat) (name : String) (v : Value) :
    List JsObject :=
  match h[o]? with
  | none => h
  | some ob => h.set o { ob with props := setProp ob.props name v }

/-- Own property of the object at address `o`, or `none` if absent. -/
def ownProp (h : List JsObject) (o : Nat) (name : String) : Option Value :=
  match h[o]? with
  | none => none
  | some ob => getProp ob.props name

/-- The `[[Prototype]]` link of the object at address `o`. -/
def objProto (h : List JsObject) (o : Nat) : Option Nat :=
  match h[o]? with
  | none => none
  | some ob => ob.proto

/-- Fuelled worker for prototype-chain lookup.  A delegation step is only
taken to a strictly smaller address (chains built by `Object.create`
always descend, mirroring JavaScript's acyclicity guarantee), so any fuel
above the starting address gives the same answer (`lookupFuel_high`). -/
def lookupFuel (h : List JsObject) : Nat → Nat → String → Value
  | 0, _, _ => Value.undefined
  | fuel + 1, o, name =>
    match h[o]? with
    | none => Value.undefined
    | some ob =>
      match getProp ob.props name with
      | some v => v
      | none =>
        match ob.proto with
        | none => Value.undefined
        | some p => if p < o then lookupFuel h fuel p name else Value.undefined

/-- JavaScript `[[Get]]` restricted to data properties: look `name` up on
the object at address `o`, then along its prototype chain; a miss yields
`undefined`. -/
def lookupObj (h : List JsObject) (o : Nat) (name : String) : Value :=
  lookupFuel h (o + 1) o name

/-- `c.prototype` for a constructor-table index (a table miss defaults to
address `0`; all theorems assume in-range constructors). -/
def ctorProto (s : State) (c : Nat) : Nat :=
  match s.ctors[c]? with
  | none => 0
  | some k => k.prototype

/-- `c.prototype = ⟨p⟩`: overwrite a constructor's prototype slot. -/
def setCtorProto (cs : List Ctor) (c : Nat) (p : Nat) : List Ctor :=
  cs.set c { prototype := p }

/-- `Object.create(p)`: allocate a fresh object with no own properties
whose `[[Prototype]]` is the object at address `p`; returns the new heap
and the fresh address. -/
def objectCreate (h : List JsObject) (p : Nat) : List JsObject × Nat :=
  (h ++ [{ props := [], proto := some p }], h.length)

/--
The function under verification, from `src/index.js`:

    function extend(dog, animal) {
      dog.prototype = Object.create(animal.prototype)
      dog.prototype.constructor = dog
    }

Line 1 reads `animal.prototype`, allocates a fresh object delegating to
it, and overwrites `dog.prototype`.  Line 2 re-reads `dog.prototype`
(the just-allocated object) and assigns its `constructor` property. -/
def extend (s : State) (dog animal : Nat) : State :=
  let created := objectCreate s.heap (ctorProto s animal)
  let h1 := created.1
  let p := created.2
  { heap := setObjProp h1 p "constructor" (Value.ctor dog),
    ctors := setCtorProto s.ctors dog p }

/-- `new C()` as far as prototype linkage goes: allocate an object whose
`[[Prototype]]` is the object currently held in `C.prototype`.  The
constructor body (which would add own properties) is caller code outside
this library and is not modelled. -/
def newInstance (s : State) (c : Nat) : State × Nat :=
  let created := objectCreate s.heap (ctorProto s c)
  ({ s with heap := created.1 }, created.2)

/-- Caller code `C.prototype.name = v`: add/overwrite a member on the
object currently held in `C.prototype`. -/
def setProtoProp (s : State) (c : Nat) (name : String) (v : Value) : State :=
  { s with heap := setObjProp s.heap (ctorProto s c) name v }

/-- Caller code `C.prototype = <object at p>`: reassign the prototype
slot itself (used to show `extend` captured the old object, not the
slot). -/
def assignProtoSlot (s : State) (c : Nat) (p : Nat) : State :=
  { s with ctors := setCtorProto s.ctors c p }

/-- The only error kind the underlying language produces here. -/
inductive JsError where
  | typeError : String → JsError
deriving DecidableEq, Repr

/-- Evaluating the member expression `x.prototype` on an arbitrary value:
on `null`/`undefined` the language throws a `TypeError`; a constructor
function yields its prototype object; on other values the property is
read as usual (a plain object via chain lookup, a primitive has no
`prototype` own property here, giving `undefined`). -/
def readPrototypeSlot (s : State) : Value → Except JsError Value
  | Value.nullV => Except.error (JsError.typeError "Cannot read properties of null")
  | Value.undefined =>
      Except.error (JsError.typeError "Cannot read properties of undefined")
  | Value.ctor c => Except.ok (Value.obj (ctorProto s c))
  | Value.obj o => Except.ok (lookupObj s.heap o "prototype")
  | Value.str _ => Except.ok Value.undefined

/-- `Object.create(v)` on an arbitrary value: throws a `TypeError` unless
the argument is an object or `null`. -/
def objectCreateV (h : List JsObject) :
    Value → Except JsError (List JsObject × Nat)
  | Value.obj p => Except.ok (objectCreate h p)
  | Value.nullV => Except.ok (h ++ [{ props := [], proto := none }], h.length)
  | _ => Except.error
      (JsError.typeError "Object prototype may only be an Object or null")

/-- `extend` as the language actually executes it on arbitrary argument
values, with no validation of its own: `animal.prototype` is read first
(the right-hand side of line 1 evaluates before the assignment lands),
then `Object.create`, then the writes to `dog`; each step fails with the
language's own `TypeError` exactly where the slot access fails. -/
def extendV (s : State) (dog animal : Value) : Except JsError State := do
  let pv ← readPrototypeSlot s animal
  let created ← objectCreateV s.heap pv
  match dog with
  | Value.ctor d =>
      Except.ok
        { heap := setObjProp created.1 created.2 "constructor" (Value.ctor d),
          ctors := setCtorProto s.ctors d created.2 }
  | _ => Except.error (JsError.typeError "Cannot create property on non-object")

/-- The prototype object `extend` freshly allocates for `dog`: its own
properties are exactly the `constructor` back-reference set by line 2,
and it delegates to the object `animal.prototype` held at call time. -/
def freshProto (s : State) (dog animal : Nat) : JsObject :=
  { props := [("constructor", Value.ctor dog)],
    proto := some (ctorProto s animal) }

/-- A concrete scene for sanity checks and witnesses: object 0 is
`Animal.prototype` (owning `eat`), object 1 is the original
`Dog.prototype` (owning `pant`); constructor 0 is `Animal`, constructor 1
is `Dog`. -/
def animalProtoObj : JsObject :=
  { props := [("eat", Value.str "nom nom nom")], proto := none }

/-- Original `Dog.prototype` for the concrete scene. -/
def dogProtoObj : JsObject :=
  { props := [("pant", Value.str "hhh hhh hhh")], proto := none }

/-- Concrete state: heap `[Animal.prototype, Dog.prototype]`, constructor
table `[Animal ↦ 0, Dog ↦ 1]`. -/
def sceneState : State :=
  { heap := [animalProtoObj, dogProtoObj], ctors := [⟨0⟩, ⟨1⟩] }

/-- Original `Puppy.prototype` (no own members) for the three-type scene. -/
def puppyProtoObj : JsObject :=
  { props := [], proto := none }

/-- Concrete three-type scene for the chained-inheritance claim: heap
`[Animal.prototype, Dog.prototype, Puppy.prototype]`, constructor table
`[Animal ↦ 0, Dog ↦ 1, Puppy ↦ 2]`. -/
def sceneState3 : State :=
  { heap := [animalProtoObj, dogProtoObj, puppyProtoObj],
    ctors := [⟨0⟩, ⟨1⟩, ⟨2⟩] }

example :
    lookupObj (newInstance (extend sceneState 1 0) 1).1.heap
      (newInstance (extend sceneState 1 0) 1).2 "eat"
      = Value.str "nom nom nom" := by decide

example :
    lookupObj (extend sceneState 1 0).heap
      (ctorProto (extend sceneState 1 0) 1) "constructor"
      = Value.ctor 1 := by decide

example :
    lookupObj (extend sceneState 1 0).heap
      (ctorProto (extend sceneState 1 0) 1) "pant"
      = Value.undefined := by decide

/-! ### Basic lemmas about properties, heap updates and chain lookup -/

theorem getProp_setProp_self (ps : List (String × Value)) (name : String)
    (v : Value) : getProp (setProp ps name v) name = some v := by
  induction ps with
  | nil => simp [setProp, getProp]
  | cons kv rest ih =>
    obtain ⟨k, w⟩ := kv
    by_cases hk : k = name <;> simp [setProp, getProp, hk, ih]

theorem getProp_setProp_ne (ps : List (String × Value)) (name m : String)
    (v : Value) (hm : m ≠ name) :
    getProp (setProp ps name v) m = getProp ps m := by
  have hnm : name ≠ m := Ne.symm hm
  induction ps with
  | nil => simp [setProp, getProp, hnm]
  | cons kv rest ih =>
    obtain ⟨k, w⟩ := kv
    by_cases hk : k = name
    · subst hk
      simp [setProp, getProp, hnm]
    · simp [setProp, getProp, hk, ih]

theorem length_setObjProp (h : List JsObject) (o : Nat) (name : String)
    (v : Value) : (setObjProp h o name v).length = h.length := by
  unfold setObjProp
  cases h[o]? <;> simp

theorem getElem?_setObjProp_ne (h : List JsObject) (o : Nat) (name : String)
    (v : Value) (i : Nat) (hio : i ≠ o) :
    (setObjProp h o name v)[i]? = h[i]? := by
  unfold setObjProp
  cases h[o]? with
  | none => rfl
  | some ob => exact List.getElem?_set_ne (Ne.symm hio)

theorem getElem?_setObjProp_self (h : List JsObject) (o : Nat) (name : String)
    (v : Value) (ob : JsObject) (hob : h[o]? = some ob) :
    (setObjProp h o name v)[o]?
      = some { ob with props := setProp ob.props name v } := by
  have ho : o < h.length := by
    by_contra hlt
    rw [List.getElem?_eq_none (by omega)] at hob
    exact Option.noConfusion hob
  unfold setObjProp
  rw [hob]
  exact List.getElem?_set_eq_of_lt _ ho

theorem set_concat_length (l : List JsObject) (a b : JsObject) :
    (l ++ [a]).set l.length b = l ++ [b] := by
  induction l with
  | nil => rfl
  | cons x xs ih =>
    show x :: ((xs ++ [a]).set xs.length b) = x :: (xs ++ [b])
    rw [ih]

theorem lookupFuel_high (h : List JsObject) (name : String) :
    ∀ f o, o < f → lookupFuel h f o name = lookupObj h o name := by
  intro f
  induction f using Nat.strong_induction_on with
  | _ f ih =>
    intro o ho
    obtain ⟨g, rfl⟩ : ∃ g, f = g + 1 := ⟨f - 1, by omega⟩
    unfold lookupObj
    unfold lookupFuel
    cases hob : h[o]? with
    | none => rfl
    | some ob =>
      dsimp only
      cases hgp : getProp ob.props name with
      | some v => rfl
      | none =>
        dsimp only
        cases hpr : ob.proto with
        | none => rfl
        | some p =>
          dsimp only
          by_cases hpo : p < o
          · rw [if_pos hpo, if_pos hpo, ih g (by omega) p (by omega),
              ih o (by omega) p hpo]
          · rw [if_neg hpo, if_neg hpo]

theorem lookupObj_eq_none (h : List JsObject) (o : Nat) (name : String)
    (hob : h[o]? = none) : lookupObj h o name = Value.undefined := by
  unfold lookupObj lookupFuel
  rw [hob]

theorem lookupObj_own (h : List JsObject) (o : Nat) (name : String) (v : Value)
    (ob : JsObject) (hob : h[o]? = some ob)
    (hgp : getProp ob.props name = some v) : lookupObj h o name = v := by
  unfold lookupObj lookupFuel
  rw [hob]
  simp only [hgp]

theorem lookupObj_noproto (h : List JsObject) (o : Nat) (name : String)
    (ob : JsObject) (hob : h[o]? = some ob)
    (hgp : getProp ob.props name = none) (hpr : ob.proto = none) :
    lookupObj h o name = Value.undefined := by
  unfold lookupObj lookupFuel
  rw [hob]
  simp only [hgp, hpr]

theorem lookupObj_protoGe (h : List JsObject) (o : Nat) (name : String)
    (ob : JsObject) (p : Nat) (hob : h[o]? = some ob)
    (hgp : getProp ob.props name = none) (hpr : ob.proto = some p)
    (hpo : ¬ p < o) : lookupObj h o name = Value.undefined := by
  unfold lookupObj lookupFuel
  rw [hob]
  simp only [hgp, hpr, hpo, if_false]

theorem lookupObj_step (h : List JsObject) (o : Nat) (name : String)
    (ob : JsObject) (p : Nat) (hob : h[o]? = some ob)
    (hgp : getProp ob.props name = none) (hpr : ob.proto = some p)
    (hpo : p < o) : lookupObj h o name = lookupObj h p name := by
  unfold lookupObj lookupFuel
  rw [hob]
  simp only [hgp, hpr, hpo, if_true]
  exact lookupFuel_high h name o p hpo

/-- The frame property of chain lookup: lookup from address `o` only ever
inspects addresses `≤ o`, so two heaps that agree there give the same
answer. -/
theorem lookupObj_frame (h1 h2 : List JsObject) (name : String) :
    ∀ o, (∀ j, j ≤ o → h1[j]? = h2[j]?) →
      lookupObj h1 o name = lookupObj h2 o name := by
  intro o
  induction o using Nat.strong_induction_on with
  | _ o ih =>
    intro hag
    cases hob : h2[o]? with
    | none =>
      rw [lookupObj_eq_none h1 o name (by rw [hag o le_rfl, hob]),
        lookupObj_eq_none h2 o name hob]
    | some ob =>
      have hob1 : h1[o]? = some ob := by rw [hag o le_rfl, hob]
      cases hgp : getProp ob.props name with
      | some v =>
        rw [lookupObj_own h1 o name v ob hob1 hgp,
          lookupObj_own h2 o name v ob hob hgp]
      | none =>
        cases hpr : ob.proto with
        | none =>
          rw [lookupObj_noproto h1 o name ob hob1 hgp hpr,
            lookupObj_noproto h2 o name ob hob hgp hpr]
        | some p =>
          by_cases hpo : p < o
          · rw [lookupObj_step h1 o name ob p hob1 hgp hpr hpo,
              lookupObj_step h2 o name ob p hob hgp hpr hpo]
            exact ih p hpo fun j hj => hag j (le_trans hj (le_of_lt hpo))
          · rw [lookupObj_protoGe h1 o name ob p hob1 hgp hpr hpo,
              lookupObj_protoGe h2 o name ob p hob hgp hpr hpo]

/-! ### The shape of the state after `extend` -/

theorem extend_heap (s : State) (d b : Nat) :
    (extend s d b).heap = s.heap ++ [freshProto s d b] := by
  unfold extend objectCreate setObjProp
  dsimp only
  rw [List.getElem?_concat_length]
  dsimp only
  rw [set_concat_length]
  rfl

theorem extend_ctors (s : State) (d b : Nat) :
    (extend s d b).ctors = s.ctors.set d { prototype := s.heap.length } := rfl

theorem extend_heap_length (s : State) (d b : Nat) :
    (extend s d b).heap.length = s.heap.length + 1 := by
  rw [extend_heap]
  simp

theorem getElem?_extend_heap_lt (s : State) (d b : Nat) (i : Nat)
    (hi : i < s.heap.length) : (extend s d b).heap[i]? = s.heap[i]? := by
  rw [extend_heap, List.getElem?_append_left hi]

theorem getElem?_extend_heap_new (s : State) (d b : Nat) :
    (extend s d b).heap[s.heap.length]? = some (freshProto s d b) := by
  rw [extend_heap]
  exact List.getElem?_concat_length _ _

theorem ctorProto_extend_self (s : State) (d b : Nat)
    (hd : d < s.ctors.length) : ctorProto (extend s d b) d = s.heap.length := by
  unfold ctorProto
  rw [extend_ctors, List.getElem?_set_eq_of_lt _ hd]

theorem ctorProto_extend_ne (s : State) (d b c : Nat) (hc : c ≠ d) :
    ctorProto (extend s d b) c = ctorProto s c := by
  unfold ctorProto
  rw [extend_ctors, List.getElem?_set_ne (Ne.symm hc)]

theorem extend_ctors_length (s : State) (d b : Nat) :
    (extend s d b).ctors.length = s.ctors.length := by
  rw [extend_ctors]
  simp

theorem getProp_freshProto_ne (s : State) (d b : Nat) (name : String)
    (hname : name ≠ "constructor") :
    getProp (freshProto s d b).props name = none := by
  simp [freshProto, getProp, Ne.symm hname]

theorem getProp_freshProto_ctor (s : State) (d b : Nat) :
    getProp (freshProto s d b).props "constructor" = some (Value.ctor d) := by
  simp [freshProto, getProp]

theorem ownProp_some (h : List JsObject) (o : Nat) (name : String) (v : Value) :
    ownProp h o name = some v →
    ∃ ob, h[o]? = some ob ∧ getProp ob.props name = some v := by
  unfold ownProp
  cases hob : h[o]? with
  | none => intro hv; exact Option.noConfusion hv
  | some ob => intro hv; exact ⟨ob, rfl, hv⟩

theorem lookupObj_append (h l : List JsObject) (o : Nat) (ho : o < h.length)
    (name : String) : lookupObj (h ++ l) o name = lookupObj h o name :=
  lookupObj_frame (h ++ l) h name o fun j hj =>
    List.getElem?_append_left (by omega)

theorem lookupObj_extend (s : State) (d b : Nat) (o : Nat)
    (ho : o < s.heap.length) (name : String) :
    lookupObj (extend s d b).heap o name = lookupObj s.heap o name := by
  rw [extend_heap]
  exact lookupObj_append s.heap _ o ho name

theorem newInstance_heap (s : State) (c : Nat) :
    (newInstance s c).1.heap
      = s.heap ++ [{ props := [], proto := some (ctorProto s c) }] := rfl

theorem newInstance_idx (s : State) (c : Nat) :
    (newInstance s c).2 = s.heap.length := rfl

theorem newInstance_ctors (s : State) (c : Nat) :
    (newInstance s c).1.ctors = s.ctors := rfl

theorem lookupObj_newInstance (s : State) (c : Nat)
    (hc : ctorProto s c < s.heap.length) (name : String) :
    lookupObj (newInstance s c).1.heap (newInstance s c).2 name
      = lookupObj s.heap (ctorProto s c) name := by
  rw [newInstance_heap, newInstance_idx,
    lookupObj_step (s.heap ++ [{ props := [], proto := some (ctorProto s c) }])
      s.heap.length name { props := [], proto := some (ctorProto s c) }
      (ctorProto s c) (List.getElem?_concat_length _ _) rfl rfl hc]
  exact lookupObj_append s.heap _ (ctorProto s c) hc name

theorem objProto_newInstance (s : State) (c : Nat) :
    objProto (newInstance s c).1.heap (newInstance s c).2
      = some (ctorProto s c) := by
  unfold objProto
  rw [newInstance_heap, newInstance_idx, List.getElem?_concat_length]

theorem objProto_congr (h1 h2 : List JsObject) (o : Nat)
    (h : h1[o]? = h2[o]?) : objProto h1 o = objProto h2 o := by
  unfold objProto
  rw [h]

theorem setProtoProp_heap (s : State) (c : Nat) (name : String) (v : Value) :
    (setProtoProp s c name v).heap = setObjProp s.heap (ctorProto s c) name v :=
  rfl

theorem ctorProto_setProtoProp (s : State) (c : Nat) (name : String)
    (v : Value) (e : Nat) :
    ctorProto (setProtoProp s c name v) e = ctorProto s e := rfl

theorem ctorProto_assign_ne (s : State) (c q e : Nat) (h : e ≠ c) :
    ctorProto (assignProtoSlot s c q) e = ctorProto s e := by
  unfold ctorProto assignProtoSlot setCtorProto
  dsimp only
  rw [List.getElem?_set_ne (Ne.symm h)]

theorem assignProtoSlot_heap (s : State) (c q : Nat) :
    (assignProtoSlot s c q).heap = s.heap := rfl

/-! ### The claims -/

/-- C1: for a valid derived/base pair, after `extend(derived, base)` a
property that base's prototype owns (any name other than `constructor`,
which is the one own property of the replacement prototype) resolves via
the delegation chain both on derived's prototype and on a fresh instance
of derived, to that property's value. -/
theorem C1_extend_delegates (s : State) (d b : Nat)
    (hd : d < s.ctors.length) (hb : ctorProto s b < s.heap.length)
    (name : String) (v : Value) (hname : name ≠ "constructor")
    (hv : ownProp s.heap (ctorProto s b) name = some v) :
    lookupObj (extend s d b).heap (ctorProto (extend s d b) d) name = v
    ∧ lookupObj (newInstance (extend s d b) d).1.heap
        (newInstance (extend s d b) d).2 name = v := by
  obtain ⟨ob, hob, hgp⟩ := ownProp_some s.heap (ctorProto s b) name v hv
  have hproto :
      lookupObj (extend s d b).heap (ctorProto (extend s d b) d) name = v := by
    rw [ctorProto_extend_self s d b hd,
      lookupObj_step (extend s d b).heap s.heap.length name (freshProto s d b)
        (ctorProto s b) (getElem?_extend_heap_new s d b)
        (getProp_freshProto_ne s d b name hname) rfl hb,
      lookupObj_extend s d b (ctorProto s b) hb name]
    exact lookupObj_own s.heap (ctorProto s b) name v ob hob hgp
  refine ⟨hproto, ?_⟩
  rw [lookupObj_newInstance (extend s d b) d
    (by rw [ctorProto_extend_self s d b hd, extend_heap_length]; omega) name]
  exact hproto

/-- C2: after `extend(derived, base)` the `constructor` property read from
derived's prototype equals `derived` itself, and (for distinct types) not
`base`. -/
theorem C2_constructor_identity (s : State) (d b : Nat)
    (hd : d < s.ctors.length) :
    lookupObj (extend s d b).heap (ctorProto (extend s d b) d) "constructor"
      = Value.ctor d
    ∧ (d ≠ b →
        lookupObj (extend s d b).heap (ctorProto (extend s d b) d)
            "constructor" ≠ Value.ctor b) := by
  have h1 : lookupObj (extend s d b).heap (ctorProto (extend s d b) d)
      "constructor" = Value.ctor d := by
    rw [ctorProto_extend_self s d b hd]
    exact lookupObj_own (extend s d b).heap s.heap.length "constructor"
      (Value.ctor d) (freshProto s d b) (getElem?_extend_heap_new s d b)
      (getProp_freshProto_ctor s d b)
  refine ⟨h1, fun hne => ?_⟩
  rw [h1]
  intro hc
  exact hne (Value.ctor.inj hc)

/-- C3: `extend(derived, base)` never mutates base or base's prototype:
the replacement prototype is a fresh object distinct from base's
prototype, every pre-existing heap cell (in particular base's prototype
object) is unchanged by the call, base's own prototype slot is unchanged,
and a member added to derived's prototype after linking leaves base's
prototype object untouched. -/
theorem C3_base_never_mutated (s : State) (d b : Nat)
    (hd : d < s.ctors.length) (hb : ctorProto s b < s.heap.length)
    (hbd : b ≠ d) :
    ctorProto (extend s d b) d ≠ ctorProto s b
    ∧ (∀ i, i < s.heap.length → (extend s d b).heap[i]? = s.heap[i]?)
    ∧ ctorProto (extend s d b) b = ctorProto s b
    ∧ ∀ name v,
        (setProtoProp (extend s d b) d name v).heap[ctorProto s b]?
          = s.heap[ctorProto s b]? := by
  refine ⟨?_, ?_, ctorProto_extend_ne s d b b hbd, ?_⟩
  · rw [ctorProto_extend_self s d b hd]
    omega
  · intro i hi
    exact getElem?_extend_heap_lt s d b i hi
  · intro name v
    rw [setProtoProp_heap,
      getElem?_setObjProp_ne (extend s d b).heap (ctorProto (extend s d b) d)
        name v (ctorProto s b)
        (by rw [ctorProto_extend_self s d b hd]; omega)]
    exact getElem?_extend_heap_lt s d b (ctorProto s b) hb

/-- C4: members attached to derived's prototype before the call are
discarded: the prototype slot is replaced wholesale, so a pre-existing own
member that base's prototype chain does not define is no longer found by
lookup on derived's new prototype. -/
theorem C4_preexisting_members_lost (s : State) (d b : Nat)
    (hd : d < s.ctors.length) (hb : ctorProto s b < s.heap.length)
    (name : String) (v : Value) (hname : name ≠ "constructor")
    (hpre : ownProp s.heap (ctorProto s d) name = some v)
    (hbase : lookupObj s.heap (ctorProto s b) name = Value.undefined) :
    lookupObj (extend s d b).heap (ctorProto (extend s d b) d) name
      = Value.undefined := by
  rw [ctorProto_extend_self s d b hd,
    lookupObj_step (extend s d b).heap s.heap.length name (freshProto s d b)
      (ctorProto s b) (getElem?_extend_heap_new s d b)
      (getProp_freshProto_ne s d b name hname) rfl hb,
    lookupObj_extend s d b (ctorProto s b) hb name]
  exact hbase

/-- C5: chained linkage — after `extend(B, A)` then `extend(C, B)`, a
fresh instance of `C` resolves, through the delegation chain, a member
owned by `A`'s prototype (any name other than `constructor`). -/
theorem C5_chained_linkage (s : State) (tA tB tC : Nat)
    (hA : tA < s.ctors.length) (hB : tB < s.ctors.length)
    (hC : tC < s.ctors.length) (hpA : ctorProto s tA < s.heap.length)
    (name : String) (v : Value) (hname : name ≠ "constructor")
    (hv : ownProp s.heap (ctorProto s tA) name = some v) :
    lookupObj (newInstance (extend (extend s tB tA) tC tB) tC).1.heap
      (newInstance (extend (extend s tB tA) tC tB) tC).2 name = v := by
  obtain ⟨ob, hob, hgp⟩ := ownProp_some s.heap (ctorProto s tA) name v hv
  have hC1 : tC < (extend s tB tA).ctors.length := by
    rw [extend_ctors_length]; exact hC
  have hlen1 : (extend s tB tA).heap.length = s.heap.length + 1 :=
    extend_heap_length s tB tA
  have hB1 : ctorProto (extend s tB tA) tB = s.heap.length :=
    ctorProto_extend_self s tB tA hB
  have hC2 : ctorProto (extend (extend s tB tA) tC tB) tC
      = (extend s tB tA).heap.length :=
    ctorProto_extend_self (extend s tB tA) tC tB hC1
  have hlen2 : (extend (extend s tB tA) tC tB).heap.length
      = (extend s tB tA).heap.length + 1 :=
    extend_heap_length (extend s tB tA) tC tB
  have hinst : ctorProto (extend (extend s tB tA) tC tB) tC
      < (extend (extend s tB tA) tC tB).heap.length := by
    omega
  have hpr1 : (freshProto (extend s tB tA) tC tB).proto
      = some s.heap.length := by
    simp [freshProto, hB1]
  have hpo1 : s.heap.length < (extend s tB tA).heap.length := by omega
  have hmid : (extend (extend s tB tA) tC tB).heap[s.heap.length]?
      = some (freshProto s tB tA) := by
    rw [getElem?_extend_heap_lt (extend s tB tA) tC tB s.heap.length
      (by omega)]
    exact getElem?_extend_heap_new s tB tA
  rw [lookupObj_newInstance (extend (extend s tB tA) tC tB) tC hinst name,
    hC2,
    lookupObj_step (extend (extend s tB tA) tC tB).heap
      (extend s tB tA).heap.length name (freshProto (extend s tB tA) tC tB)
      s.heap.length (getElem?_extend_heap_new (extend s tB tA) tC tB)
      (getProp_freshProto_ne (extend s tB tA) tC tB name hname) hpr1 hpo1,
    lookupObj_step (extend (extend s tB tA) tC tB).heap s.heap.length name
      (freshProto s tB tA) (ctorProto s tA) hmid
      (getProp_freshProto_ne s tB tA name hname) rfl hpA,
    lookupObj_extend (extend s tB tA) tC tB (ctorProto s tA) (by omega) name,
    lookupObj_extend s tB tA (ctorProto s tA) hpA name]
  exact lookupObj_own s.heap (ctorProto s tA) name v ob hob hgp

/-- C6: delegation is lookup-time, not copy-time — a member assigned to
base's prototype object after `extend(derived, base)` has run is visible
through derived's prototype and on a fresh instance of derived. -/
theorem C6_lookup_time_delegation (s : State) (d b : Nat)
    (hd : d < s.ctors.length) (hb : ctorProto s b < s.heap.length)
    (hbd : b ≠ d) (name : String) (v : Value)
    (hname : name ≠ "constructor") :
    lookupObj (setProtoProp (extend s d b) b name v).heap
        (ctorProto (setProtoProp (extend s d b) b name v) d) name = v
    ∧ lookupObj (newInstance (setProtoProp (extend s d b) b name v) d).1.heap
        (newInstance (setProtoProp (extend s d b) b name v) d).2 name = v := by
  obtain ⟨ob, hob⟩ : ∃ ob, s.heap[ctorProto s b]? = some ob := by
    cases hx : s.heap[ctorProto s b]? with
    | none =>
      rw [List.getElem?_eq_none_iff] at hx
      omega
    | some ob => exact ⟨ob, rfl⟩
  have hcb : ctorProto (extend s d b) b = ctorProto s b :=
    ctorProto_extend_ne s d b b hbd
  have hcd : ctorProto (extend s d b) d = s.heap.length :=
    ctorProto_extend_self s d b hd
  have hob1 : (extend s d b).heap[ctorProto s b]? = some ob := by
    rw [getElem?_extend_heap_lt s d b (ctorProto s b) hb]
    exact hob
  have hheap : (setProtoProp (extend s d b) b name v).heap
      = setObjProp (extend s d b).heap (ctorProto s b) name v := by
    rw [setProtoProp_heap, hcb]
  have hnew : (setProtoProp (extend s d b) b name v).heap[s.heap.length]?
      = some (freshProto s d b) := by
    rw [hheap,
      getElem?_setObjProp_ne (extend s d b).heap (ctorProto s b) name v
        s.heap.length (by omega)]
    exact getElem?_extend_heap_new s d b
  have hupd : (setProtoProp (extend s d b) b name v).heap[ctorProto s b]?
      = some { ob with props := setProp ob.props name v } := by
    rw [hheap]
    exact getElem?_setObjProp_self (extend s d b).heap (ctorProto s b) name v
      ob hob1
  have hfirst : lookupObj (setProtoProp (extend s d b) b name v).heap
      (ctorProto (setProtoProp (extend s d b) b name v) d) name = v := by
    rw [ctorProto_setProtoProp, hcd,
      lookupObj_step (setProtoProp (extend s d b) b name v).heap
        s.heap.length name (freshProto s d b) (ctorProto s b) hnew
        (getProp_freshProto_ne s d b name hname) rfl hb]
    exact lookupObj_own _ (ctorProto s b) name v
      { ob with props := setProp ob.props name v } hupd
      (getProp_setProp_self ob.props name v)
  refine ⟨hfirst, ?_⟩
  have hlen : (setProtoProp (extend s d b) b name v).heap.length
      = s.heap.length + 1 := by
    rw [hheap, length_setObjProp, extend_heap_length]
  rw [lookupObj_newInstance (setProtoProp (extend s d b) b name v) d
    (by rw [ctorProto_setProtoProp, hcd]; omega) name]
  rw [ctorProto_setProtoProp, hcd] at hfirst ⊢
  exact hfirst

/-- C7: last call wins — running `extend(derived, b1)` and then
`extend(derived, b2)` is observably equal to running `extend(derived, b2)`
alone: every chain lookup through derived's prototype agrees, every other
constructor's prototype slot agrees, and every lookup rooted at a
pre-existing object agrees.  With `b1 = b2` this is per-call idempotence. -/
theorem C7_last_call_wins (s : State) (d b1 b2 : Nat)
    (hd : d < s.ctors.length) (hb2d : b2 ≠ d)
    (hb2 : ctorProto s b2 < s.heap.length) :
    (∀ name,
        lookupObj (extend (extend s d b1) d b2).heap
            (ctorProto (extend (extend s d b1) d b2) d) name
          = lookupObj (extend s d b2).heap
              (ctorProto (extend s d b2) d) name)
    ∧ (∀ c, c ≠ d →
        ctorProto (extend (extend s d b1) d b2) c
          = ctorProto (extend s d b2) c)
    ∧ (∀ o, o < s.heap.length → ∀ name,
        lookupObj (extend (extend s d b1) d b2).heap o name
          = lookupObj (extend s d b2).heap o name) := by
  have hd1 : d < (extend s d b1).ctors.length := by
    rw [extend_ctors_length]
    exact hd
  have hlen1 : (extend s d b1).heap.length = s.heap.length + 1 :=
    extend_heap_length s d b1
  have hb2' : ctorProto (extend s d b1) b2 = ctorProto s b2 :=
    ctorProto_extend_ne s d b1 b2 hb2d
  refine ⟨?_, ?_, ?_⟩
  · intro name
    rw [ctorProto_extend_self (extend s d b1) d b2 hd1,
      ctorProto_extend_self s d b2 hd]
    by_cases hname : name = "constructor"
    · subst hname
      rw [lookupObj_own (extend (extend s d b1) d b2).heap
          (extend s d b1).heap.length _ (Value.ctor d)
          (freshProto (extend s d b1) d b2)
          (getElem?_extend_heap_new (extend s d b1) d b2)
          (getProp_freshProto_ctor (extend s d b1) d b2),
        lookupObj_own (extend s d b2).heap s.heap.length _ (Value.ctor d)
          (freshProto s d b2) (getElem?_extend_heap_new s d b2)
          (getProp_freshProto_ctor s d b2)]
    · rw [lookupObj_step (extend (extend s d b1) d b2).heap
          (extend s d b1).heap.length name (freshProto (extend s d b1) d b2)
          (ctorProto s b2) (getElem?_extend_heap_new (extend s d b1) d b2)
          (getProp_freshProto_ne (extend s d b1) d b2 name hname)
          (by simp [freshProto, hb2']) (by omega),
        lookupObj_step (extend s d b2).heap s.heap.length name
          (freshProto s d b2) (ctorProto s b2)
          (getElem?_extend_heap_new s d b2)
          (getProp_freshProto_ne s d b2 name hname) rfl hb2,
        lookupObj_extend (extend s d b1) d b2 (ctorProto s b2) (by omega)
          name,
        lookupObj_extend s d b1 (ctorProto s b2) hb2 name,
        lookupObj_extend s d b2 (ctorProto s b2) hb2 name]
  · intro c hc
    rw [ctorProto_extend_ne (extend s d b1) d b2 c hc,
      ctorProto_extend_ne s d b1 c hc, ctorProto_extend_ne s d b2 c hc]
  · intro o ho name
    rw [lookupObj_extend (extend s d b1) d b2 o (by omega) name,
      lookupObj_extend s d b1 o ho name,
      lookupObj_extend s d b2 o ho name]

/-- C8: `extend` itself validates nothing.  On a base value with no
readable `prototype` slot (`null`) the call fails with the underlying
language's `TypeError` at the point the slot is read — not with a
dedicated error and not with silent success — while on constructor
arguments it runs with no check at all, producing exactly the state of
the unchecked two-line body. -/
theorem C8_no_validation (s : State) (d b : Nat) :
    extendV s (Value.ctor d) Value.nullV
      = Except.error (JsError.typeError "Cannot read properties of null")
    ∧ extendV s (Value.ctor d) (Value.ctor b) = Except.ok (extend s d b) :=
  ⟨rfl, rfl⟩

/-- C9: instances of derived constructed before `extend(derived, base)`
runs are unaffected: their `[[Prototype]]` link still points at the old
prototype object and every chain lookup on them is unchanged, while an
instance constructed after the call delegates to the newly installed
prototype. -/
theorem C9_old_instances_unaffected (s : State) (d b : Nat) :
    objProto (extend (newInstance s d).1 d b).heap (newInstance s d).2
        = objProto (newInstance s d).1.heap (newInstance s d).2
    ∧ (∀ name,
        lookupObj (extend (newInstance s d).1 d b).heap (newInstance s d).2
            name
          = lookupObj (newInstance s d).1.heap (newInstance s d).2 name)
    ∧ objProto (newInstance (extend (newInstance s d).1 d b) d).1.heap
        (newInstance (extend (newInstance s d).1 d b) d).2
      = some (ctorProto (extend (newInstance s d).1 d b) d) := by
  have hlt : (newInstance s d).2 < (newInstance s d).1.heap.length := by
    rw [newInstance_idx, newInstance_heap]
    simp
  refine ⟨?_, ?_, objProto_newInstance (extend (newInstance s d).1 d b) d⟩
  · exact objProto_congr _ _ (newInstance s d).2
      (getElem?_extend_heap_lt (newInstance s d).1 d b (newInstance s d).2
        hlt)
  · intro name
    exact lookupObj_extend (newInstance s d).1 d b (newInstance s d).2 hlt
      name

/-- C10: `base.prototype` is read exactly once, at call time — if caller
code reassigns base's prototype slot to another object afterwards,
derived's prototype still delegates to the object captured at call time,
and every lookup through derived's prototype is unchanged. -/
theorem C10_base_slot_read_once (s : State) (d b q : Nat)
    (hd : d < s.ctors.length) (hbd : b ≠ d) :
    objProto (assignProtoSlot (extend s d b) b q).heap
        (ctorProto (assignProtoSlot (extend s d b) b q) d)
      = some (ctorProto s b)
    ∧ (∀ name,
        lookupObj (assignProtoSlot (extend s d b) b q).heap
            (ctorProto (assignProtoSlot (extend s d b) b q) d) name
          = lookupObj (extend s d b).heap (ctorProto (extend s d b) d)
              name) := by
  have hcp : ctorProto (assignProtoSlot (extend s d b) b q) d
      = ctorProto (extend s d b) d :=
    ctorProto_assign_ne (extend s d b) b q d (Ne.symm hbd)
  refine ⟨?_, ?_⟩
  · rw [hcp, assignProtoSlot_heap, ctorProto_extend_self s d b hd]
    unfold objProto
    rw [getElem?_extend_heap_new s d b]
    rfl
  · intro name
    rw [hcp, assignProtoSlot_heap]

/-! ### Concrete witnesses on the Animal/Dog scenes -/

/-- Witness for C1: after `extend(Dog, Animal)`, `eat` resolves on
`Dog.prototype` and on a fresh `Dog` instance. -/
theorem C1_witness :
    lookupObj (extend sceneState 1 0).heap
        (ctorProto (extend sceneState 1 0) 1) "eat"
      = Value.str "nom nom nom"
    ∧ lookupObj (newInstance (extend sceneState 1 0) 1).1.heap
        (newInstance (extend sceneState 1 0) 1).2 "eat"
      = Value.str "nom nom nom" :=
  C1_extend_delegates sceneState 1 0 (by decide) (by decide) "eat"
    (Value.str "nom nom nom") (by decide) (by decide)

/-- Witness for C2: `Dog.prototype.constructor` is `Dog`, not `Animal`. -/
theorem C2_witness :
    lookupObj (extend sceneState 1 0).heap
        (ctorProto (extend sceneState 1 0) 1) "constructor" = Value.ctor 1
    ∧ (1 ≠ 0 →
        lookupObj (extend sceneState 1 0).heap
          (ctorProto (extend sceneState 1 0) 1) "constructor"
            ≠ Value.ctor 0) :=
  C2_constructor_identity sceneState 1 0 (by decide)

/-- Witness for C3: `extend(Dog, Animal)` leaves `Animal.prototype`
untouched, and adding `bark` to `Dog.prototype` afterwards still leaves
it untouched. -/
theorem C3_witness :
    ctorProto (extend sceneState 1 0) 1 ≠ ctorProto sceneState 0
    ∧ (extend sceneState 1 0).heap[0]? = sceneState.heap[0]?
    ∧ ctorProto (extend sceneState 1 0) 0 = ctorProto sceneState 0
    ∧ (setProtoProp (extend sceneState 1 0) 1 "bark"
        (Value.str "woof")).heap[ctorProto sceneState 0]?
      = sceneState.heap[ctorProto sceneState 0]? :=
  have h := C3_base_never_mutated sceneState 1 0 (by decide) (by decide)
    (by decide)
  ⟨h.1, h.2.1 0 (by decide), h.2.2.1, h.2.2.2 "bark" (Value.str "woof")⟩

/-- Witness for C4: `pant`, owned by the old `Dog.prototype`, is no
longer found after `extend(Dog, Animal)`. -/
theorem C4_witness :
    lookupObj (extend sceneState 1 0).heap
      (ctorProto (extend sceneState 1 0) 1) "pant" = Value.undefined :=
  C4_preexisting_members_lost sceneState 1 0 (by decide) (by decide) "pant"
    (Value.str "hhh hhh hhh") (by decide) (by decide) (by decide)

/-- Witness for C5: after `extend(Dog, Animal)` and
`extend(Puppy, Dog)`, a fresh `Puppy` instance resolves `eat` from
`Animal.prototype`. -/
theorem C5_witness :
    lookupObj (newInstance (extend (extend sceneState3 1 0) 2 1) 2).1.heap
      (newInstance (extend (extend sceneState3 1 0) 2 1) 2).2 "eat"
      = Value.str "nom nom nom" :=
  C5_chained_linkage sceneState3 0 1 2 (by decide) (by decide) (by decide)
    (by decide) "eat" (Value.str "nom nom nom") (by decide) (by decide)

/-- Witness for C6: `fly`, assigned on `Animal.prototype` after
`extend(Dog, Animal)` already ran, is visible on `Dog.prototype` and on a
fresh `Dog` instance. -/
theorem C6_witness :
    lookupObj (setProtoProp (extend sceneState 1 0) 0 "fly"
        (Value.str "flap")).heap
      (ctorProto (setProtoProp (extend sceneState 1 0) 0 "fly"
        (Value.str "flap")) 1) "fly" = Value.str "flap"
    ∧ lookupObj (newInstance (setProtoProp (extend sceneState 1 0) 0 "fly"
        (Value.str "flap")) 1).1.heap
      (newInstance (setProtoProp (extend sceneState 1 0) 0 "fly"
        (Value.str "flap")) 1).2 "fly" = Value.str "flap" :=
  C6_lookup_time_delegation sceneState 1 0 (by decide) (by decide)
    (by decide) "fly" (Value.str "flap") (by decide)

/-- Witness for C7: extending `Dog` from `Animal` twice is observably the
same as extending it once, sampled at `eat`, at `Animal`'s slot and at
heap address 0. -/
theorem C7_witness :
    lookupObj (extend (extend sceneState 1 0) 1 0).heap
        (ctorProto (extend (extend sceneState 1 0) 1 0) 1) "eat"
      = lookupObj (extend sceneState 1 0).heap
          (ctorProto (extend sceneState 1 0) 1) "eat"
    ∧ ctorProto (extend (extend sceneState 1 0) 1 0) 0
        = ctorProto (extend sceneState 1 0) 0
    ∧ lookupObj (extend (extend sceneState 1 0) 1 0).heap 0 "eat"
        = lookupObj (extend sceneState 1 0).heap 0 "eat" :=
  have h := C7_last_call_wins sceneState 1 0 0 (by decide) (by decide)
    (by decide)
  ⟨h.1 "eat", h.2.1 0 (by decide), h.2.2 0 (by decide) "eat"⟩

/-- Witness for C10: after reassigning `Animal.prototype` to another
object, `Dog.prototype` still delegates to the object captured when
`extend(Dog, Animal)` ran, sampled at `eat`. -/
theorem C10_witness :
    objProto (assignProtoSlot (extend sceneState 1 0) 0 1).heap
        (ctorProto (assignProtoSlot (extend sceneState 1 0) 0 1) 1)
      = some (ctorProto sceneState 0)
    ∧ lookupObj (assignProtoSlot (extend sceneState 1 0) 0 1).heap
        (ctorProto (assignProtoSlot (extend sceneState 1 0) 0 1) 1) "eat"
      = lookupObj (extend sceneState 1 0).heap
          (ctorProto (extend sceneState 1 0) 1) "eat" :=
  have h := C10_base_slot_read_once sceneState 1 0 1 (by decide) (by decide)
  ⟨h.1, h.2 "eat"⟩
